import Mathlib

/-!
Formal model of the worunie-2025 team-building and topic-selection services.

The definitions below are a shallow embedding of the Python source:
`app/models.py` (data rows and constants), `app/team_service.py`
(`TeamBuildingService`), `app/topic_service.py` (`TopicSelectionService`),
`app/user_service.py` (`UserService.get_user_info`), and the admin
soft-delete endpoint of `app/db_viewer.py`.  SQLAlchemy tables become
lists of row structures, `query(...).filter(...).first()` becomes
`List.find?`, `.count()` becomes `List.countP`, and each `return` branch
of a service method becomes a constructor of an outcome type.
-/

namespace Worunie

/-- Row of the `users` table (`app/models.py`, class `User`).  Only the
columns the services read are kept; `position` is `Option` because the
column is nullable and the code checks `if not db_position`. -/
structure UserRow where
  user_id : String
  name : String
  position : Option String
  is_active : Bool
deriving Repr, DecidableEq

/-- Row of the `teams` table (`app/models.py`, class `Team`). -/
structure TeamRow where
  id : Nat
  name : String
  creator_id : String
  creator_name : String
  is_active : Bool
  created_at : Nat
deriving Repr, DecidableEq

/-- Row of the `team_members` table (`app/models.py`, class `TeamMember`).
Membership rows carry no active flag in the source: they are hard-deleted. -/
structure MemberRow where
  team_id : Nat
  user_id : String
  user_name : String
  position : String
deriving Repr, DecidableEq

/-- Modelled from the spec: row of the topic-selection table.  The class
`TopicSelection` is imported by `app/topic_service.py` from `app.models`
but is absent from `app/models.py`; its fields are taken from the spec
(team reference, team name, topic value, creator identity and name,
active flag, created/updated timestamps) and from how
`topic_service.py` reads and writes them. -/
structure SelectionRow where
  team_id : Nat
  team_name : String
  topic : String
  creator_id : String
  creator_name : String
  is_active : Bool
  created_at : Nat
  updated_at : Nat
deriving Repr, DecidableEq

/-- The allocation store: the four tables plus the autoincrement counter
for team ids. -/
structure Store where
  users : List UserRow
  teams : List TeamRow
  members : List MemberRow
  selections : List SelectionRow
  nextTeamId : Nat
deriving Repr, DecidableEq

/-- `MAX_TEAMS_5` from `app/models.py`. -/
def MAX_TEAMS_5 : Nat := 10

/-- `MAX_TEAMS_4` from `app/models.py`. -/
def MAX_TEAMS_4 : Nat := 2

/-- Modelled from the spec: the topic enumeration `TOPICS` is imported by
`app/topic_service.py` from `app.models` but defined nowhere in the
source; the spec fixes a two-valued enumeration, and the code compares
against the literals `"WORK"` and `"RUN"`. -/
def TOPICS : List String := ["WORK", "RUN"]

/-- Modelled from the spec: the per-topic quota `MAX_TEAMS_PER_TOPIC` is
imported by `app/topic_service.py` from `app.models` but defined nowhere
in the source; the spec gives a fixed quota, e.g. 6. -/
def MAX_TEAMS_PER_TOPIC : Nat := 6

/-- The `position_mapping` dict of `TeamBuildingService.add_member_to_team`. -/
def position_mapping (p : String) : Option String :=
  if p = "백엔드" then some "BE"
  else if p = "프론트엔드" then some "FE"
  else if p = "디자인" then some "Designer"
  else if p = "기획" then some "Planner"
  else none

/-- `db.query(Team).filter(Team.name == name, Team.is_active == True).first()`. -/
def findActiveTeam (s : Store) (team_name : String) : Option TeamRow :=
  s.teams.find? (fun t => t.name == team_name && t.is_active)

/-- `UserService.get_user_info`: first active user with the given Slack id. -/
def findActiveUser (s : Store) (user_id : String) : Option UserRow :=
  s.users.find? (fun u => u.user_id == user_id && u.is_active)

/-- Number of membership rows of a team,
`db.query(TeamMember).filter(TeamMember.team_id == tid).count()`. -/
def memberCount (s : Store) (tid : Nat) : Nat :=
  s.members.countP (fun m => m.team_id == tid)

/-- The `team_count_4` loop of `add_member_to_team`: active teams other
than the current one holding at least 4 membership rows. -/
def otherTeams4 (s : Store) (tid : Nat) : Nat :=
  (s.teams.filter
    (fun t => t.is_active && t.id != tid && decide (4 ≤ memberCount s t.id))).length

/-- Count of active teams, used by the global cap in `create_team`. -/
def activeTeamsCount (s : Store) : Nat :=
  s.teams.countP (fun t => t.is_active)

/-- Active selections for a topic value, as counted by
`TopicSelectionService.get_topic_counts`. -/
def topicCount (s : Store) (v : String) : Nat :=
  s.selections.countP (fun sel => sel.topic == v && sel.is_active)

/-- In-place mutation of the first row matching a predicate, the list
analogue of updating the object returned by `.first()` and committing. -/
def updateFirst (q : α → Bool) (f : α → α) : List α → List α
  | [] => []
  | a :: l => if q a then f a :: l else a :: updateFirst q f l

/-- Outcomes of `TeamBuildingService.create_team`, one per return branch. -/
inductive CreateOutcome where
  | duplicateActiveName
  | reactivated
  | capacityExceeded
  | created
deriving Repr, DecidableEq

/-- `TeamBuildingService.create_team`.  `now` stands for
`datetime.utcnow()`. -/
def createTeam (s : Store) (team_name creator_id creator_name : String)
    (now : Nat) : CreateOutcome × Store :=
  match s.teams.find? (fun t => t.name == team_name && t.is_active) with
  | some _ => (.duplicateActiveName, s)
  | none =>
    match s.teams.find? (fun t => t.name == team_name && !t.is_active) with
    | some _ =>
      (.reactivated,
        { s with teams :=
            (updateFirst (fun t => t.name == team_name && !t.is_active)
              (fun t => { t with
                is_active := true
                creator_id := creator_id
                creator_name := creator_name
                created_at := now }) s.teams) })
    | none =>
      if MAX_TEAMS_5 + MAX_TEAMS_4 ≤ activeTeamsCount s then
        (.capacityExceeded, s)
      else
        (.created,
          { s with
            teams := (s.teams ++
              [⟨s.nextTeamId, team_name, creator_id, creator_name, true, now⟩])
            nextTeamId := s.nextTeamId + 1 })

/-- Outcomes of `TeamBuildingService.delete_team`. -/
inductive DeleteOutcome where
  | teamNotFound
  | notAuthorized
  | deleted
deriving Repr, DecidableEq

/-- `TeamBuildingService.delete_team`: deletes all membership rows of the
team and clears its active flag. -/
def deleteTeam (s : Store) (team_name user_id : String) (is_staff : Bool) :
    DeleteOutcome × Store :=
  match findActiveTeam s team_name with
  | none => (.teamNotFound, s)
  | some team =>
    if team.creator_id ≠ user_id ∧ is_staff = false then (.notAuthorized, s)
    else
      (.deleted,
        { s with
          members := (s.members.filter (fun m => !(m.team_id == team.id)))
          teams := (s.teams.map
            (fun t => if t.id == team.id then { t with is_active := false } else t)) })

/-- Outcomes of `TeamBuildingService.add_member_to_team`, one per return
branch (the similar-name suggestion only changes the not-found message). -/
inductive AddMemberOutcome where
  | teamNotFound
  | unregistered
  | noPosition
  | unmappedPosition
  | alreadyAssigned
  | teamFull
  | fourTierExhausted
  | added
deriving Repr, DecidableEq

/-- `TeamBuildingService.add_member_to_team`.  The checks appear in the
order of the source: team lookup, user lookup, position present, position
mapped, membership exclusivity, 5-member ceiling, 4-member-tier check,
then the insert. -/
def addMember (s : Store) (team_name user_id user_name : String) :
    AddMemberOutcome × Store :=
  match findActiveTeam s team_name with
  | none => (.teamNotFound, s)
  | some team =>
    match findActiveUser s user_id with
    | none => (.unregistered, s)
    | some u =>
      match u.position with
      | none => (.noPosition, s)
      | some dp =>
        if dp = "" then (.noPosition, s)
        else
          match position_mapping dp with
          | none => (.unmappedPosition, s)
          | some pos =>
            match s.members.find? (fun m => m.user_id == user_id) with
            | some _ => (.alreadyAssigned, s)
            | none =>
              if 5 ≤ memberCount s team.id then (.teamFull, s)
              else if 4 ≤ memberCount s team.id ∧
                  MAX_TEAMS_4 ≤ otherTeams4 s team.id then
                (.fourTierExhausted, s)
              else
                (.added,
                  { s with members :=
                      (s.members ++ [⟨team.id, user_id, user_name, pos⟩]) })

/-- Outcomes of `TeamBuildingService.remove_member_from_team`. -/
inductive RemoveOutcome where
  | teamNotFound
  | notAuthorized
  | notAMember
  | cannotRemoveSelf
  | minimumHeadcount
  | removed
deriving Repr, DecidableEq

/-- `TeamBuildingService.remove_member_from_team`.  Note the order of the
source: the membership lookup precedes the self-removal check, and the
self-removal check compares the target to the calling user. -/
def removeMember (s : Store) (team_name target_user_id user_id : String)
    (is_staff : Bool) : RemoveOutcome × Store :=
  match findActiveTeam s team_name with
  | none => (.teamNotFound, s)
  | some team =>
    if team.creator_id ≠ user_id ∧ is_staff = false then (.notAuthorized, s)
    else
      match s.members.find?
          (fun m => m.team_id == team.id && m.user_id == target_user_id) with
      | none => (.notAMember, s)
      | some _ =>
        if target_user_id = user_id ∧ is_staff = false then
          (.cannotRemoveSelf, s)
        else if is_staff = false ∧ memberCount s team.id ≤ 1 then
          (.minimumHeadcount, s)
        else
          (.removed,
            { s with members :=
                (s.members.eraseP
                  (fun m => m.team_id == team.id && m.user_id == target_user_id)) })

/-- Python `str.upper()` on the ASCII topic strings: upper-case every
character. -/
def pyUpper (s : String) : String :=
  ⟨s.data.map Char.toUpper⟩

/-- `TopicSelectionService.is_selection_time`: current Korea time at or
after 15:30, expressed on minutes of the day. -/
def is_selection_time (kstMinutes : Nat) : Bool :=
  15 * 60 + 30 ≤ kstMinutes

/-- Outcomes of `TopicSelectionService.select_topic`. -/
inductive SelectOutcome where
  | outsideWindow
  | invalidTopic
  | teamNotFound
  | notAuthorized
  | quotaExceeded
  | changed
  | alreadySelected
  | selected
deriving Repr, DecidableEq

/-- `TopicSelectionService.select_topic`.  The source checks, in order:
the wall-clock window, topic validity (after upper-casing), team
existence, creator authorization, then the per-topic quota, and only then
branches on the existing selection (update on a different topic, failure
on the identical topic, insert when none exists).  `kstMinutes` feeds the
window check and `now` stands for `datetime.utcnow()`. -/
def selectTopic (s : Store) (team_name topic creator_id creator_name : String)
    (kstMinutes now : Nat) : SelectOutcome × Store :=
  if is_selection_time kstMinutes = false then (.outsideWindow, s)
  else if ¬ (pyUpper topic ∈ TOPICS) then (.invalidTopic, s)
  else
    match findActiveTeam s team_name with
    | none => (.teamNotFound, s)
    | some team =>
      if team.creator_id ≠ creator_id then (.notAuthorized, s)
      else if pyUpper topic = "WORK" ∧
          MAX_TEAMS_PER_TOPIC ≤ topicCount s "WORK" then
        (.quotaExceeded, s)
      else if pyUpper topic ≠ "WORK" ∧
          MAX_TEAMS_PER_TOPIC ≤ topicCount s "RUN" then
        (.quotaExceeded, s)
      else
        match s.selections.find?
            (fun sel => sel.team_name == team_name && sel.is_active) with
        | some sel =>
          if sel.topic ≠ pyUpper topic then
            (.changed,
              { s with selections :=
                  (updateFirst
                    (fun q => q.team_name == team_name && q.is_active)
                    (fun q => { q with topic := pyUpper topic, updated_at := now })
                    s.selections) })
          else (.alreadySelected, s)
        | none =>
          (.selected,
            { s with selections :=
                (s.selections ++
                  [⟨team.id, team_name, pyUpper topic, creator_id,
                    creator_name, true, now, now⟩]) })

/-- The admin surface's team soft-delete (`app/db_viewer.py`,
`POST /teams/delete/{team_id}`): `UPDATE teams SET is_active = 0 WHERE id = ?`.
Membership rows are left untouched, unlike the core `delete_team`. -/
def admin_delete_team (s : Store) (team_id : Nat) : Store :=
  { s with teams := (s.teams.map
      (fun t => if t.id == team_id then { t with is_active := false } else t)) }

/-- The empty allocation store over a given participant directory. -/
def initStore (users : List UserRow) : Store :=
  ⟨users, [], [], [], 1⟩

/-- Store states reachable by sequential execution of the core operations,
starting from an empty store over an arbitrary participant directory; the
directory may also be replaced between operations (it is maintained by the
external admin surface, which the core must tolerate). -/
inductive Reachable : Store → Prop where
  | init (users : List UserRow) : Reachable (initStore users)
  | step_create (s : Store) (tn cid cname : String) (now : Nat) :
      Reachable s → Reachable (createTeam s tn cid cname now).2
  | step_delete (s : Store) (tn uid : String) (staff : Bool) :
      Reachable s → Reachable (deleteTeam s tn uid staff).2
  | step_add (s : Store) (tn uid uname : String) :
      Reachable s → Reachable (addMember s tn uid uname).2
  | step_remove (s : Store) (tn tgt uid : String) (staff : Bool) :
      Reachable s → Reachable (removeMember s tn tgt uid staff).2
  | step_select (s : Store) (tn topic cid cname : String) (km now : Nat) :
      Reachable s → Reachable (selectTopic s tn topic cid cname km now).2
  | set_users (s : Store) (users : List UserRow) :
      Reachable s → Reachable { s with users := users }

/-- Names bound at module top level by `app/models.py` (imports,
assignments, class and function definitions), read off the source file. -/
def modelsModuleNames : List String :=
  ["create_engine", "Column", "Integer", "String", "DateTime", "ForeignKey",
   "Boolean", "declarative_base", "sessionmaker", "relationship", "datetime",
   "os", "DATABASE_URL", "engine", "SessionLocal", "Base", "User", "Team",
   "TeamMember", "POSITIONS", "TEAM_COMPOSITION_5", "TEAM_COMPOSITION_4",
   "MAX_TEAMS_5", "MAX_TEAMS_4", "TEAM_COMPOSITION", "get_db"]

/-- The names `app/topic_service.py` line 2 imports from `app.models`. -/
def topicServiceModelImports : List String :=
  ["TopicSelection", "Team", "TOPICS", "MAX_TEAMS_PER_TOPIC"]

/-- A Python `from`-import succeeds only when every imported name is bound
in the source module; otherwise it raises `ImportError` at module load,
before any function of the importing module can run. -/
def topicServiceImportable : Bool :=
  topicServiceModelImports.all (fun n => modelsModuleNames.contains n)

/-- Membership in an `updateFirst` image comes from the original list,
either unchanged or through the update function. -/
theorem mem_updateFirst {q : α → Bool} {f : α → α} :
    ∀ {l : List α} {b : α}, b ∈ updateFirst q f l →
      b ∈ l ∨ ∃ a, a ∈ l ∧ b = f a := by
  intro l
  induction l with
  | nil => intro b hb; simp [updateFirst] at hb
  | cons a l ih =>
    intro b hb
    by_cases hq : q a = true
    · simp only [updateFirst, if_pos hq, List.mem_cons] at hb
      rcases hb with hb | hb
      · exact Or.inr ⟨a, List.mem_cons_self a l, hb⟩
      · exact Or.inl (List.mem_cons_of_mem a hb)
    · simp only [updateFirst, if_neg hq, List.mem_cons] at hb
      rcases hb with hb | hb
      · exact Or.inl (hb ▸ List.mem_cons_self a l)
      · rcases ih hb with hb | ⟨c, hc, rfl⟩
        · exact Or.inl (List.mem_cons_of_mem a hb)
        · exact Or.inr ⟨c, List.mem_cons_of_mem a hc, rfl⟩

/-- Updating one row changes a count by at most one. -/
theorem countP_updateFirst_le_succ (q : α → Bool) (f : α → α) (p : α → Bool) :
    ∀ l : List α, (updateFirst q f l).countP p ≤ l.countP p + 1 := by
  intro l
  induction l with
  | nil => simp [updateFirst]
  | cons a l ih =>
    by_cases hq : q a = true
    · simp only [updateFirst, if_pos hq]
      rw [List.countP_cons, List.countP_cons]
      have h1 : (if p (f a) = true then 1 else 0) ≤ 1 := by split <;> omega
      omega
    · simp only [updateFirst, if_neg hq]
      rw [List.countP_cons, List.countP_cons]
      omega

/-- When the update can only falsify the counted predicate on the rows it
touches, the count does not grow. -/
theorem countP_updateFirst_le (q : α → Bool) (f : α → α) (p : α → Bool)
    (hq : ∀ a, q a = true → p (f a) = false) :
    ∀ l : List α, (updateFirst q f l).countP p ≤ l.countP p := by
  intro l
  induction l with
  | nil => simp [updateFirst]
  | cons a l ih =>
    by_cases hqa : q a = true
    · simp only [updateFirst, if_pos hqa]
      rw [List.countP_cons, List.countP_cons]
      have h1 : (if p (f a) = true then 1 else 0) = 0 := by
        rw [hq a hqa]; simp
      have h2 : (0:Nat) ≤ (if p a = true then 1 else 0) := by omega
      omega
    · simp only [updateFirst, if_neg hqa]
      rw [List.countP_cons, List.countP_cons]
      omega

/-- A pointwise map that can only falsify the counted predicate does not
increase the count. -/
theorem countP_map_le (g : α → α) (p : α → Bool)
    (hp : ∀ a, p (g a) = true → p a = true) :
    ∀ l : List α, (l.map g).countP p ≤ l.countP p := by
  intro l
  induction l with
  | nil => simp
  | cons a l ih =>
    rw [List.map_cons, List.countP_cons, List.countP_cons]
    by_cases hga : p (g a) = true
    · rw [if_pos hga, if_pos (hp a hga)]
      omega
    · rw [if_neg hga]
      have h2 : (0:Nat) ≤ (if p a = true then 1 else 0) := by omega
      omega

/-- The state invariant of the allocation store: team ids stay below the
autoincrement counter, membership rows reference allocated team ids, no
team exceeds 5 membership rows, every participant holds at most one
membership row system-wide, at most one active team carries a given name,
and every topic stays within its quota. -/
structure Inv (s : Store) : Prop where
  teamIdLt : ∀ t ∈ s.teams, t.id < s.nextTeamId
  memberIdLt : ∀ m ∈ s.members, m.team_id < s.nextTeamId
  memberCap : ∀ t ∈ s.teams, memberCount s t.id ≤ 5
  userOnce : ∀ uid : String, s.members.countP (fun m => m.user_id == uid) ≤ 1
  nameOnce : ∀ n : String, s.teams.countP (fun t => t.name == n && t.is_active) ≤ 1
  quota : ∀ v : String, topicCount s v ≤ MAX_TEAMS_PER_TOPIC

theorem inv_initStore (users : List UserRow) : Inv (initStore users) := by
  refine ⟨?_, ?_, ?_, ?_, ?_, ?_⟩ <;>
    simp [initStore, memberCount, topicCount]

/-- Reactivating the inactive team found by `create_team` preserves the
invariant: when no active team carries the name, at most one row can
become active. -/
theorem inv_reactivate (s : Store) (tn cid cname : String) (now : Nat)
    (h : Inv s)
    (hact : s.teams.find? (fun t => t.name == tn && t.is_active) = none) :
    Inv { s with teams :=
      (updateFirst (fun t => t.name == tn && !t.is_active)
        (fun t => { t with
          is_active := true
          creator_id := cid
          creator_name := cname
          created_at := now }) s.teams) } := by
  refine ⟨?_, h.memberIdLt, ?_, h.userOnce, ?_, h.quota⟩
  · intro u hu
    rcases mem_updateFirst hu with hu | ⟨a, ha, rfl⟩
    · exact h.teamIdLt u hu
    · exact h.teamIdLt a ha
  · intro u hu
    rcases mem_updateFirst hu with hu | ⟨a, ha, rfl⟩
    · exact h.memberCap u hu
    · exact h.memberCap a ha
  · intro n
    by_cases hn : n = tn
    · subst hn
      have h0 : s.teams.countP (fun t => t.name == n && t.is_active) = 0 :=
        List.countP_eq_zero.mpr (List.find?_eq_none.mp hact)
      refine le_trans (countP_updateFirst_le_succ _ _ _ _) ?_
      omega
    · refine le_trans (countP_updateFirst_le _ _ _ ?_ _) (h.nameOnce n)
      intro a hqa
      have hname : a.name = tn := by
        have := (Bool.and_eq_true _ _).mp hqa
        exact eq_of_beq this.1
      simp only [Bool.and_true, hname, beq_eq_false_iff_ne]
      exact fun hcon => hn hcon.symm

/-- Inserting a fresh team row preserves the invariant. -/
theorem inv_newTeam (s : Store) (tn cid cname : String) (now : Nat)
    (h : Inv s)
    (hact : s.teams.find? (fun t => t.name == tn && t.is_active) = none) :
    Inv { s with
      teams := (s.teams ++ [⟨s.nextTeamId, tn, cid, cname, true, now⟩])
      nextTeamId := s.nextTeamId + 1 } := by
  refine ⟨?_, ?_, ?_, h.userOnce, ?_, h.quota⟩
  · intro t ht
    rcases List.mem_append.mp ht with ht | ht
    · exact Nat.lt_succ_of_lt (h.teamIdLt t ht)
    · simp only [List.mem_singleton] at ht
      subst ht
      exact Nat.lt_succ_self _
  · intro m hm
    exact Nat.lt_succ_of_lt (h.memberIdLt m hm)
  · intro t ht
    rcases List.mem_append.mp ht with ht | ht
    · exact h.memberCap t ht
    · simp only [List.mem_singleton] at ht
      subst ht
      show memberCount s s.nextTeamId ≤ 5
      have h0 : memberCount s s.nextTeamId = 0 := by
        refine List.countP_eq_zero.mpr ?_
        intro m hm
        have := h.memberIdLt m hm
        simp only [beq_iff_eq]
        omega
      omega
  · intro n
    show (s.teams ++ ([⟨s.nextTeamId, tn, cid, cname, true, now⟩] :
        List TeamRow)).countP (fun t => t.name == n && t.is_active) ≤ 1
    rw [List.countP_append]
    by_cases hn : n = tn
    · subst hn
      have h0 : s.teams.countP (fun t => t.name == n && t.is_active) = 0 :=
        List.countP_eq_zero.mpr (List.find?_eq_none.mp hact)
      rw [h0]
      simp [List.countP_cons]
    · have h1 : (([⟨s.nextTeamId, tn, cid, cname, true, now⟩] :
          List TeamRow).countP (fun t => t.name == n && t.is_active)) = 0 := by
        simp only [List.countP_cons, List.countP_nil]
        simp only [Bool.and_eq_true, beq_iff_eq]
        rw [if_neg]
        intro hcon
        exact hn hcon.1.symm
      rw [h1]
      simpa using h.nameOnce n

/-- `create_team` preserves the store invariant. -/
theorem createTeam_inv (s : Store) (tn cid cname : String) (now : Nat)
    (h : Inv s) : Inv (createTeam s tn cid cname now).2 := by
  unfold createTeam
  cases hact : s.teams.find? (fun t => t.name == tn && t.is_active) with
  | some t => exact h
  | none =>
    cases hina : s.teams.find? (fun t => t.name == tn && !t.is_active) with
    | some t => exact inv_reactivate s tn cid cname now h hact
    | none =>
      by_cases hcap : MAX_TEAMS_5 + MAX_TEAMS_4 ≤ activeTeamsCount s
      · exact if_pos hcap ▸ h
      · have := inv_newTeam s tn cid cname now h hact
        exact if_neg hcap ▸ this

/-- Soft-deleting a team and erasing its membership rows preserves the
invariant. -/
theorem inv_teamDeleted (s : Store) (tid : Nat) (h : Inv s) :
    Inv { s with
      members := (s.members.filter (fun m => !(m.team_id == tid)))
      teams := (s.teams.map
        (fun t => if t.id == tid then { t with is_active := false } else t)) } := by
  refine ⟨?_, ?_, ?_, ?_, ?_, h.quota⟩
  · intro t ht
    rcases List.mem_map.mp ht with ⟨a, ha, rfl⟩
    have hid : (if a.id == tid then { a with is_active := false } else a).id = a.id := by
      split <;> rfl
    rw [hid]
    exact h.teamIdLt a ha
  · intro m hm
    exact h.memberIdLt m (List.mem_of_mem_filter hm)
  · intro t ht
    rcases List.mem_map.mp ht with ⟨a, ha, rfl⟩
    have hid : (if a.id == tid then { a with is_active := false } else a).id = a.id := by
      split <;> rfl
    rw [hid]
    refine le_trans (List.Sublist.countP_le _ (List.filter_sublist _)) ?_
    exact h.memberCap a ha
  · intro uid
    refine le_trans (List.Sublist.countP_le _ (List.filter_sublist _)) ?_
    exact h.userOnce uid
  · intro n
    refine le_trans (countP_map_le _ _ ?_ _) (h.nameOnce n)
    intro a hpa
    by_cases hid : (a.id == tid) = true
    · rw [if_pos hid] at hpa
      simp at hpa
    · rwa [if_neg hid] at hpa

/-- `delete_team` preserves the store invariant. -/
theorem deleteTeam_inv (s : Store) (tn uid : String) (staff : Bool)
    (h : Inv s) : Inv (deleteTeam s tn uid staff).2 := by
  unfold deleteTeam
  split
  · exact h
  · split
    · exact h
    · rename_i team heq hauth
      exact inv_teamDeleted s team.id h

/-- Erasing one membership row preserves the invariant. -/
theorem inv_memberErased (s : Store) (q : MemberRow → Bool) (h : Inv s) :
    Inv { s with members := (s.members.eraseP q) } := by
  refine ⟨h.teamIdLt, ?_, ?_, ?_, h.nameOnce, h.quota⟩
  · intro m hm
    exact h.memberIdLt m ((List.eraseP_sublist _).mem hm)
  · intro t ht
    refine le_trans (List.Sublist.countP_le _ (List.eraseP_sublist _)) ?_
    exact h.memberCap t ht
  · intro u
    refine le_trans (List.Sublist.countP_le _ (List.eraseP_sublist _)) ?_
    exact h.userOnce u

/-- `remove_member_from_team` preserves the store invariant. -/
theorem removeMember_inv (s : Store) (tn tgt uid : String) (staff : Bool)
    (h : Inv s) : Inv (removeMember s tn tgt uid staff).2 := by
  unfold removeMember
  split
  · exact h
  · split
    · exact h
    · split
      · exact h
      · split
        · exact h
        · split
          · exact h
          · exact inv_memberErased s _ h

/-- Inserting a membership row for a team below the 5-member ceiling, for
a participant with no existing row, preserves the invariant. -/
theorem inv_memberAdded (s : Store) (team : TeamRow) (uid uname pos : String)
    (h : Inv s)
    (hteam : team ∈ s.teams)
    (hfree : s.members.find? (fun m => m.user_id == uid) = none)
    (hcnt : memberCount s team.id ≤ 4) :
    Inv { s with members := (s.members ++ [⟨team.id, uid, uname, pos⟩]) } := by
  refine ⟨h.teamIdLt, ?_, ?_, ?_, h.nameOnce, h.quota⟩
  · intro m hm
    rcases List.mem_append.mp hm with hm | hm
    · exact h.memberIdLt m hm
    · simp only [List.mem_singleton] at hm
      subst hm
      exact h.teamIdLt team hteam
  · intro t ht
    show (s.members ++ ([⟨team.id, uid, uname, pos⟩] : List MemberRow)).countP
        (fun m => m.team_id == t.id) ≤ 5
    rw [List.countP_append]
    by_cases hid : team.id = t.id
    · have h1 : (([⟨team.id, uid, uname, pos⟩] : List MemberRow).countP
          (fun m => m.team_id == t.id)) = 1 := by
        simp [List.countP_cons, hid]
      rw [h1]
      have h3 : s.members.countP (fun m => m.team_id == t.id) ≤ 4 := hid ▸ hcnt
      omega
    · have h1 : (([⟨team.id, uid, uname, pos⟩] : List MemberRow).countP
          (fun m => m.team_id == t.id)) = 0 := by
        simp [List.countP_cons, hid]
      rw [h1]
      have h3 : s.members.countP (fun m => m.team_id == t.id) ≤ 5 := h.memberCap t ht
      omega
  · intro u
    show (s.members ++ ([⟨team.id, uid, uname, pos⟩] : List MemberRow)).countP
        (fun m => m.user_id == u) ≤ 1
    rw [List.countP_append]
    by_cases hu : uid = u
    · subst hu
      have h0 : s.members.countP (fun m => m.user_id == uid) = 0 :=
        List.countP_eq_zero.mpr (List.find?_eq_none.mp hfree)
      have h1 : (([⟨team.id, uid, uname, pos⟩] : List MemberRow).countP
          (fun m => m.user_id == uid)) ≤ 1 := by
        simp [List.countP_cons]
      omega
    · have h1 : (([⟨team.id, uid, uname, pos⟩] : List MemberRow).countP
          (fun m => m.user_id == u)) = 0 := by
        simp [List.countP_cons, hu]
      rw [h1]
      have h2 := h.userOnce u
      omega

/-- `add_member_to_team` preserves the store invariant. -/
theorem addMember_inv (s : Store) (tn uid uname : String)
    (h : Inv s) : Inv (addMember s tn uid uname).2 := by
  unfold addMember
  split
  · exact h
  · split
    · exact h
    · split
      · exact h
      · split
        · exact h
        · split
          · exact h
          · split
            · exact h
            · split
              · exact h
              · split
                · exact h
                · rename_i x4 team heq4 x3 u2 heq3 x2 dp heq2 hdp x1 pos heq1 x0 hfree h5 h4
                  have hteamMem : team ∈ s.teams :=
                    List.mem_of_find?_eq_some heq4
                  have hcnt : memberCount s team.id ≤ 4 := by omega
                  exact inv_memberAdded s team uid uname pos h hteamMem hfree hcnt

/-- A valid topic that passed both quota guards of `select_topic` is below
its quota. -/
theorem topic_below_quota (s : Store) (tU : String)
    (htop : tU ∈ TOPICS)
    (hw : ¬(tU = "WORK" ∧ MAX_TEAMS_PER_TOPIC ≤ topicCount s "WORK"))
    (hr : ¬(tU ≠ "WORK" ∧ MAX_TEAMS_PER_TOPIC ≤ topicCount s "RUN")) :
    topicCount s tU < MAX_TEAMS_PER_TOPIC := by
  have hcase : tU = "WORK" ∨ tU = "RUN" := by simpa [TOPICS] using htop
  rcases hcase with h1 | h1
  · subst h1
    have h2 : ¬ MAX_TEAMS_PER_TOPIC ≤ topicCount s "WORK" := fun hc => hw ⟨rfl, hc⟩
    omega
  · subst h1
    have hne : "RUN" ≠ "WORK" := by decide
    have h2 : ¬ MAX_TEAMS_PER_TOPIC ≤ topicCount s "RUN" := fun hc => hr ⟨hne, hc⟩
    omega

/-- Re-pointing the existing selection row of a team at a topic below its
quota preserves the invariant. -/
theorem inv_selUpdated (s : Store) (tn tU : String) (now : Nat) (h : Inv s)
    (hlt : topicCount s tU < MAX_TEAMS_PER_TOPIC) :
    Inv { s with selections :=
      (updateFirst (fun q => q.team_name == tn && q.is_active)
        (fun q => { q with topic := tU, updated_at := now }) s.selections) } := by
  refine ⟨h.teamIdLt, h.memberIdLt, h.memberCap, h.userOnce, h.nameOnce, ?_⟩
  intro v
  show (updateFirst (fun q => q.team_name == tn && q.is_active)
      (fun q => { q with topic := tU, updated_at := now }) s.selections).countP
      (fun sel => sel.topic == v && sel.is_active) ≤ MAX_TEAMS_PER_TOPIC
  by_cases hv : v = tU
  · subst hv
    refine le_trans (countP_updateFirst_le_succ _ _ _ _) ?_
    have h2 : s.selections.countP (fun sel => sel.topic == v && sel.is_active) <
        MAX_TEAMS_PER_TOPIC := hlt
    omega
  · refine le_trans (countP_updateFirst_le _ _ _ ?_ _) ?_
    · intro a hqa
      have hne : (tU == v) = false := by
        simp only [beq_eq_false_iff_ne]
        exact fun hc => hv hc.symm
      simp [hne]
    · exact h.quota v

/-- Appending a selection row whose topic is below its quota preserves
the invariant. -/
theorem inv_selInserted (s : Store) (row : SelectionRow) (h : Inv s)
    (hlt : topicCount s row.topic < MAX_TEAMS_PER_TOPIC) :
    Inv { s with selections := (s.selections ++ [row]) } := by
  refine ⟨h.teamIdLt, h.memberIdLt, h.memberCap, h.userOnce, h.nameOnce, ?_⟩
  intro v
  show (s.selections ++ [row]).countP
      (fun sel => sel.topic == v && sel.is_active) ≤ MAX_TEAMS_PER_TOPIC
  rw [List.countP_append]
  by_cases hv : v = row.topic
  · have h1 : ([row].countP (fun sel => sel.topic == v && sel.is_active)) ≤ 1 := by
      rw [List.countP_cons]
      simp only [List.countP_nil]
      split <;> omega
    have h2 : s.selections.countP (fun sel => sel.topic == v && sel.is_active) <
        MAX_TEAMS_PER_TOPIC := hv ▸ hlt
    omega
  · have h1 : ([row].countP (fun sel => sel.topic == v && sel.is_active)) = 0 := by
      rw [List.countP_cons]
      simp only [List.countP_nil]
      rw [if_neg]
      intro hc
      simp only [Bool.and_eq_true, beq_iff_eq] at hc
      exact hv hc.1.symm
    rw [h1]
    have h2 : s.selections.countP (fun sel => sel.topic == v && sel.is_active) ≤
        MAX_TEAMS_PER_TOPIC := h.quota v
    omega

/-- `select_topic` preserves the store invariant. -/
theorem selectTopic_inv (s : Store) (tn topic cid cname : String)
    (km now : Nat) (h : Inv s) :
    Inv (selectTopic s tn topic cid cname km now).2 := by
  unfold selectTopic
  split
  · exact h
  · split
    · exact h
    · split
      · exact h
      · split
        · exact h
        · split
          · exact h
          · split
            · exact h
            · split
              · split
                · rename_i htime htop x1 team heq1 hcr hw hr x0 sel heq hd
                  have hlt := topic_below_quota s (pyUpper topic)
                    (not_not.mp htop) hw hr
                  exact inv_selUpdated s tn (pyUpper topic) now h hlt
                · exact h
              · rename_i htime htop x1 team heq1 hcr hw hr x0 heq
                have hlt := topic_below_quota s (pyUpper topic)
                  (not_not.mp htop) hw hr
                exact inv_selInserted s
                  ⟨team.id, tn, pyUpper topic, cid, cname, true, now, now⟩ h hlt

/-- Every reachable store satisfies the invariant. -/
theorem inv_of_reachable {s : Store} (h : Reachable s) : Inv s := by
  induction h with
  | init users => exact inv_initStore users
  | step_create s tn cid cname now _ ih => exact createTeam_inv s tn cid cname now ih
  | step_delete s tn uid staff _ ih => exact deleteTeam_inv s tn uid staff ih
  | step_add s tn uid uname _ ih => exact addMember_inv s tn uid uname ih
  | step_remove s tn tgt uid staff _ ih => exact removeMember_inv s tn tgt uid staff ih
  | step_select s tn topic cid cname km now _ ih =>
      exact selectTopic_inv s tn topic cid cname km now ih
  | set_users s users _ ih =>
      exact ⟨ih.teamIdLt, ih.memberIdLt, ih.memberCap, ih.userOnce, ih.nameOnce, ih.quota⟩

/-- An `updateFirst` keeps the list length. -/
theorem length_updateFirst (q : α → Bool) (f : α → α) :
    ∀ l : List α, (updateFirst q f l).length = l.length := by
  intro l
  induction l with
  | nil => rfl
  | cons a l ih =>
    by_cases hq : q a = true
    · simp [updateFirst, hq]
    · simp [updateFirst, hq, ih]

/-- The row found by `find?` is updated by `updateFirst` and stays in the
list. -/
theorem updateFirst_mem_of_find? {q : α → Bool} {f : α → α} :
    ∀ {l : List α} {a : α}, l.find? q = some a → f a ∈ updateFirst q f l := by
  intro l
  induction l with
  | nil => intro a ha; simp at ha
  | cons b l ih =>
    intro a ha
    by_cases hq : q b = true
    · rw [List.find?_cons_of_pos _ hq] at ha
      cases ha
      simp [updateFirst, hq]
    · rw [List.find?_cons_of_neg _ hq] at ha
      simp only [updateFirst, if_neg hq, List.mem_cons]
      exact Or.inr (ih ha)

/-- Common reduction of `add_member_to_team` once the team is found and
the target user resolves to a mapped position. -/
theorem addMember_reduce (s : Store) (tn uid uname : String) (team : TeamRow)
    (u : UserRow) (dp pos : String)
    (hteam : findActiveTeam s tn = some team)
    (huser : findActiveUser s uid = some u)
    (hpos : u.position = some dp) (hdp : dp ≠ "")
    (hmap : position_mapping dp = some pos) :
    addMember s tn uid uname =
      (match s.members.find? (fun m => m.user_id == uid) with
      | some _ => (.alreadyAssigned, s)
      | none =>
        if 5 ≤ memberCount s team.id then (.teamFull, s)
        else if 4 ≤ memberCount s team.id ∧
            MAX_TEAMS_4 ≤ otherTeams4 s team.id then
          (.fourTierExhausted, s)
        else
          (.added,
            { s with members := (s.members ++ [⟨team.id, uid, uname, pos⟩]) })) := by
  simp only [addMember, hteam, huser, hpos, hmap]
  rw [if_neg hdp]

/-- Common reduction of `select_topic` to the quota failure when the
target topic is already at quota. -/
theorem selectTopic_quotaExceeded (s : Store)
    (tn topic cid cname : String) (km now : Nat) (team : TeamRow)
    (htime : is_selection_time km = true)
    (htop : pyUpper topic ∈ TOPICS)
    (hteam : findActiveTeam s tn = some team)
    (hcr : team.creator_id = cid)
    (hq : MAX_TEAMS_PER_TOPIC ≤ topicCount s (pyUpper topic)) :
    selectTopic s tn topic cid cname km now = (.quotaExceeded, s) := by
  simp only [selectTopic, hteam]
  rw [if_neg (by simp [htime] : ¬ is_selection_time km = false)]
  rw [if_neg (not_not.mpr htop)]
  rw [if_neg (not_not.mpr hcr)]
  by_cases hU : pyUpper topic = "WORK"
  · rw [if_pos ⟨hU, hU ▸ hq⟩]
  · rw [if_neg (fun hc => hU hc.1)]
    have hR : pyUpper topic = "RUN" := by
      rcases (by simpa [TOPICS] using htop : pyUpper topic = "WORK" ∨
          pyUpper topic = "RUN") with h1 | h1
      · exact absurd h1 hU
      · exact h1
    rw [if_pos ⟨hU, hR ▸ hq⟩]

/-- A small participant directory used in the concrete scenarios. -/
def specUsers : List UserRow :=
  [⟨"z", "Z", some "백엔드", true⟩,
   ⟨"a", "A", some "백엔드", true⟩,
   ⟨"b", "B", some "프론트엔드", true⟩,
   ⟨"c", "C", some "디자인", true⟩,
   ⟨"d", "D", some "기획", true⟩,
   ⟨"e", "E", some "백엔드", true⟩,
   ⟨"f", "F", some "백엔드", true⟩]

/-- Scenario: team `A` (creator `z`) and team `B` (creator `y`). -/
def sA1 : Store := (createTeam (initStore specUsers) "A" "z" "Z" 0).2

def sB : Store := (createTeam sA1 "B" "y" "Y" 0).2

/-- The creator of team `A` admitted as an ordinary member of their own
team. -/
def sZcreator : Store := (addMember sB "A" "z" "Z").2

def sM1 : Store := (addMember sB "A" "a" "A").2

def sM2 : Store := (addMember sM1 "A" "b" "B").2

def sM3 : Store := (addMember sM2 "A" "c" "C").2

def sM4 : Store := (addMember sM3 "A" "d" "D").2

/-- Team `A` filled to the 5-membership ceiling with members `a`..`e`. -/
def sFull : Store := (addMember sM4 "A" "e" "E").2

/-- Team `A` deleted through the core `delete_team`. -/
def sDel : Store := (deleteTeam sFull "A" "z" false).2

/-- Team `A` soft-deleted through the admin surface: membership rows stay. -/
def sAdm : Store := admin_delete_team sFull 1

theorem reach_sB : Reachable sB :=
  Reachable.step_create sA1 "B" "y" "Y" 0
    (Reachable.step_create (initStore specUsers) "A" "z" "Z" 0
      (Reachable.init specUsers))

theorem reach_sZcreator : Reachable sZcreator :=
  Reachable.step_add sB "A" "z" "Z" reach_sB

theorem reach_sFull : Reachable sFull :=
  Reachable.step_add sM4 "A" "e" "E"
    (Reachable.step_add sM3 "A" "d" "D"
      (Reachable.step_add sM2 "A" "c" "C"
        (Reachable.step_add sM1 "A" "b" "B"
          (Reachable.step_add sB "A" "a" "A" reach_sB))))

theorem reach_sDel : Reachable sDel :=
  Reachable.step_delete sFull "A" "z" false reach_sFull

/-- Scenario: six teams `T1`..`T6`. -/
def tChain : Store :=
  (createTeam (createTeam (createTeam (createTeam (createTeam (createTeam
    (initStore []) "T1" "c1" "C1" 0).2 "T2" "c2" "C2" 0).2
    "T3" "c3" "C3" 0).2 "T4" "c4" "C4" 0).2 "T5" "c5" "C5" 0).2
    "T6" "c6" "C6" 0).2

def w1 : Store := (selectTopic tChain "T1" "WORK" "c1" "C1" 930 1).2

def w2 : Store := (selectTopic w1 "T2" "WORK" "c2" "C2" 931 2).2

def w3 : Store := (selectTopic w2 "T3" "WORK" "c3" "C3" 940 3).2

def w4 : Store := (selectTopic w3 "T4" "WORK" "c4" "C4" 940 4).2

/-- Five of the six teams selected `WORK`: one slot of the quota left. -/
def w5 : Store := (selectTopic w4 "T5" "WORK" "c5" "C5" 940 5).2

/-- All six `WORK` slots taken: the topic is exactly at its quota. -/
def w6 : Store := (selectTopic w5 "T6" "WORK" "c6" "C6" 940 6).2

theorem reach_tChain : Reachable tChain :=
  Reachable.step_create _ "T6" "c6" "C6" 0
    (Reachable.step_create _ "T5" "c5" "C5" 0
      (Reachable.step_create _ "T4" "c4" "C4" 0
        (Reachable.step_create _ "T3" "c3" "C3" 0
          (Reachable.step_create _ "T2" "c2" "C2" 0
            (Reachable.step_create _ "T1" "c1" "C1" 0
              (Reachable.init []))))))

theorem reach_w5 : Reachable w5 :=
  Reachable.step_select w4 "T5" "WORK" "c5" "C5" 940 5
    (Reachable.step_select w3 "T4" "WORK" "c4" "C4" 940 4
      (Reachable.step_select w2 "T3" "WORK" "c3" "C3" 940 3
        (Reachable.step_select w1 "T2" "WORK" "c2" "C2" 931 2
          (Reachable.step_select tChain "T1" "WORK" "c1" "C1" 930 1
            reach_tChain))))

theorem reach_w6 : Reachable w6 :=
  Reachable.step_select w5 "T6" "WORK" "c6" "C6" 940 6 reach_w5

/-- Concrete store for the 4-member-tier scenarios: team `A` holds 3
membership rows while teams `B`, `C` and `D` hold 4 each. -/
def c1Store : Store :=
  { users := [⟨"u16", "U16", some "백엔드", true⟩,
              ⟨"u17", "U17", some "프론트엔드", true⟩]
    teams := [⟨1, "A", "ca", "CA", true, 0⟩, ⟨2, "B", "cb", "CB", true, 0⟩,
              ⟨3, "C", "cc", "CC", true, 0⟩, ⟨4, "D", "cd", "CD", true, 0⟩]
    members := [⟨1, "m1", "M1", "BE"⟩, ⟨1, "m2", "M2", "BE"⟩, ⟨1, "m3", "M3", "BE"⟩,
                ⟨2, "m4", "M4", "BE"⟩, ⟨2, "m5", "M5", "BE"⟩, ⟨2, "m6", "M6", "BE"⟩,
                ⟨2, "m7", "M7", "BE"⟩,
                ⟨3, "m8", "M8", "BE"⟩, ⟨3, "m9", "M9", "BE"⟩, ⟨3, "m10", "M10", "BE"⟩,
                ⟨3, "m11", "M11", "BE"⟩,
                ⟨4, "m12", "M12", "BE"⟩, ⟨4, "m13", "M13", "BE"⟩, ⟨4, "m14", "M14", "BE"⟩,
                ⟨4, "m15", "M15", "BE"⟩]
    selections := []
    nextTeamId := 5 }

/-- Claim C1 counterexample: in a store where team `A` has exactly 3
membership rows and the number of other active teams at ≥4 memberships
already equals `MAX_TEAMS_4`, `add_member` nevertheless succeeds and
inserts the row (the claim predicts `FourPersonTierExhausted`); and in the
same store an admission taking team `B` from 4 to 5 memberships is
rejected with `FourPersonTierExhausted` (the claim predicts the tier check
is not evaluated there). -/
theorem claim_C1_cex :
    (memberCount c1Store 1 = 3 ∧ MAX_TEAMS_4 ≤ otherTeams4 c1Store 1 ∧
      (addMember c1Store "A" "u16" "U16").1 = AddMemberOutcome.added ∧
      (addMember c1Store "A" "u16" "U16").2.members ≠ c1Store.members) ∧
    (memberCount c1Store 2 = 4 ∧ MAX_TEAMS_4 ≤ otherTeams4 c1Store 2 ∧
      addMember c1Store "B" "u17" "U17" =
        (AddMemberOutcome.fourTierExhausted, c1Store)) := by
  decide

/-- Claim C1 (amended): the 4-member-tier check of `add_member_to_team`
is evaluated when the team already holds at least 4 membership rows, not
at the 3-to-4 threshold: with the team found, the target registered with
a mapped position, and the target not yet assigned anywhere, an admission
to a team with exactly 3 memberships succeeds unconditionally, while an
admission to a team with exactly 4 memberships fails with
`FourPersonTierExhausted` (inserting nothing) when at least `MAX_TEAMS_4`
other active teams hold ≥4 memberships. -/
theorem claim_C1_amended (s : Store) (tn uid uname : String) (team : TeamRow)
    (u : UserRow) (dp pos : String)
    (hteam : findActiveTeam s tn = some team)
    (huser : findActiveUser s uid = some u)
    (hpos : u.position = some dp) (hdp : dp ≠ "")
    (hmap : position_mapping dp = some pos)
    (hfree : s.members.find? (fun m => m.user_id == uid) = none) :
    (memberCount s team.id = 3 →
      addMember s tn uid uname =
        (.added, { s with members := (s.members ++ [⟨team.id, uid, uname, pos⟩]) })) ∧
    (memberCount s team.id = 4 → MAX_TEAMS_4 ≤ otherTeams4 s team.id →
      addMember s tn uid uname = (.fourTierExhausted, s)) := by
  rw [addMember_reduce s tn uid uname team u dp pos hteam huser hpos hdp hmap]
  constructor
  · intro h3
    simp only [hfree]
    rw [if_neg (by omega : ¬ 5 ≤ memberCount s team.id)]
    rw [if_neg (fun hc => absurd hc.1 (by omega : ¬ 4 ≤ memberCount s team.id))]
  · intro h4 ho
    simp only [hfree]
    rw [if_neg (by omega : ¬ 5 ≤ memberCount s team.id)]
    rw [if_pos ⟨by omega, ho⟩]

/-- Concrete check that the inputs used by `claim_C1_amended` are
admissible. -/
theorem claim_C1_witness :
    addMember c1Store "A" "u16" "U16" =
      (AddMemberOutcome.added,
        { c1Store with members := (c1Store.members ++ [⟨1, "u16", "U16", "BE"⟩]) }) ∧
    addMember c1Store "B" "u17" "U17" =
      (AddMemberOutcome.fourTierExhausted, c1Store) := by
  constructor
  · exact (claim_C1_amended c1Store "A" "u16" "U16" ⟨1, "A", "ca", "CA", true, 0⟩
      ⟨"u16", "U16", some "백엔드", true⟩ "백엔드" "BE"
      (by decide) (by decide) (by decide) (by decide) (by decide) (by decide)).1
      (by decide)
  · exact (claim_C1_amended c1Store "B" "u17" "U17" ⟨2, "B", "cb", "CB", true, 0⟩
      ⟨"u17", "U17", some "프론트엔드", true⟩ "프론트엔드" "FE"
      (by decide) (by decide) (by decide) (by decide) (by decide) (by decide)).2
      (by decide) (by decide)

/-- Claim C2: `app/topic_service.py` imports `TopicSelection`, `TOPICS`
and `MAX_TEAMS_PER_TOPIC` from `app.models`, but none of these names is
bound by `app/models.py`, so the Python module cannot be imported (the
`from`-import raises `ImportError` at load time) and none of the Topic
Allocator operations can run as written. -/
theorem claim_C2 :
    topicServiceImportable = false ∧
    "TopicSelection" ∈ topicServiceModelImports ∧
    "TOPICS" ∈ topicServiceModelImports ∧
    "MAX_TEAMS_PER_TOPIC" ∈ topicServiceModelImports ∧
    modelsModuleNames.contains "TopicSelection" = false ∧
    modelsModuleNames.contains "TOPICS" = false ∧
    modelsModuleNames.contains "MAX_TEAMS_PER_TOPIC" = false := by
  decide

/-- Claim C3 counterexample: with team `T1` already holding an active
`WORK` selection and `WORK` exactly at its quota, re-submitting the
identical topic fails with the quota error, not with `AlreadySelected` as
the claim states. -/
theorem claim_C3_cex :
    (Option.map (fun sel => sel.topic)
        (w6.selections.find? (fun sel => sel.team_name == "T1" && sel.is_active))
      = some "WORK") ∧
    MAX_TEAMS_PER_TOPIC ≤ topicCount w6 "WORK" ∧
    selectTopic w6 "T1" "WORK" "c1" "C1" 940 7 =
      (SelectOutcome.quotaExceeded, w6) := by
  decide

/-- Claim C3 (amended): re-submitting the identical topic for a team with
an active selection (creator call, inside the window) fails with
`AlreadySelected` and leaves the store unchanged provided the topic is
below its quota; when the topic is at quota the same call fails with
`TopicQuotaExceeded` instead (the quota check runs first), the store
again unchanged. -/
theorem claim_C3_amended (s : Store) (tn topic cid cname : String)
    (km now : Nat) (team : TeamRow) (sel : SelectionRow)
    (htime : is_selection_time km = true)
    (htop : pyUpper topic ∈ TOPICS)
    (hteam : findActiveTeam s tn = some team)
    (hcr : team.creator_id = cid)
    (hsel : s.selections.find? (fun q => q.team_name == tn && q.is_active) = some sel)
    (hsame : sel.topic = pyUpper topic) :
    (topicCount s (pyUpper topic) < MAX_TEAMS_PER_TOPIC →
      selectTopic s tn topic cid cname km now = (.alreadySelected, s)) ∧
    (MAX_TEAMS_PER_TOPIC ≤ topicCount s (pyUpper topic) →
      selectTopic s tn topic cid cname km now = (.quotaExceeded, s)) := by
  constructor
  · intro hlt
    simp only [selectTopic, hteam, hsel]
    rw [if_neg (by simp [htime] : ¬ is_selection_time km = false)]
    rw [if_neg (not_not.mpr htop)]
    rw [if_neg (not_not.mpr hcr)]
    by_cases hU : pyUpper topic = "WORK"
    · rw [if_neg (fun hc => absurd hc.2 (by rw [← hU]; omega))]
      rw [if_neg (fun hc => hc.1 hU)]
      rw [if_neg (not_not.mpr hsame)]
    · rw [if_neg (fun hc => hU hc.1)]
      have hR : pyUpper topic = "RUN" := by
        rcases (by simpa [TOPICS] using htop : pyUpper topic = "WORK" ∨
            pyUpper topic = "RUN") with h1 | h1
        · exact absurd h1 hU
        · exact h1
      rw [if_neg (fun hc => absurd hc.2 (by rw [← hR]; omega))]
      rw [if_neg (not_not.mpr hsame)]
  · intro hq
    exact selectTopic_quotaExceeded s tn topic cid cname km now team
      htime htop hteam hcr hq

/-- Concrete check of both halves of `claim_C3_amended`: below quota the
identical re-selection yields `AlreadySelected`; at quota it yields
`TopicQuotaExceeded`. -/
theorem claim_C3_witness :
    selectTopic w5 "T1" "WORK" "c1" "C1" 940 7 =
      (SelectOutcome.alreadySelected, w5) ∧
    selectTopic w6 "T1" "WORK" "c1" "C1" 941 8 =
      (SelectOutcome.quotaExceeded, w6) := by
  constructor
  · exact (claim_C3_amended w5 "T1" "WORK" "c1" "C1" 940 7
      ⟨1, "T1", "c1", "C1", true, 0⟩ ⟨1, "T1", "WORK", "c1", "C1", true, 1, 1⟩
      (by decide) (by decide) (by decide) (by decide) (by decide) (by decide)).1
      (by decide)
  · exact (claim_C3_amended w6 "T1" "WORK" "c1" "C1" 941 8
      ⟨1, "T1", "c1", "C1", true, 0⟩ ⟨1, "T1", "WORK", "c1", "C1", true, 1, 1⟩
      (by decide) (by decide) (by decide) (by decide) (by decide) (by decide)).2
      (by decide)

/-- Claim C4 counterexample: in a reachable store whose team `A` was
created by `z` (who, as creator, holds no membership row), the creator
removing themselves fails with `NotAMember`, not `CannotRemoveSelf` as
the claim states. -/
theorem claim_C4_cex :
    findActiveTeam sFull "A" = some ⟨1, "A", "z", "Z", true, 0⟩ ∧
    sFull.members.find? (fun m => m.team_id == 1 && m.user_id == "z") = none ∧
    removeMember sFull "A" "z" "z" false = (RemoveOutcome.notAMember, sFull) := by
  decide

/-- Claim C4 (amended): the membership lookup of
`remove_member_from_team` precedes the self-removal check, so a
non-privileged call by the creator targeting the creator fails with
`CannotRemoveSelf` only when the creator actually holds a membership row
in the team; when no such row exists the call fails with `NotAMember`.
In both cases no membership is deleted. -/
theorem claim_C4_amended (s : Store) (tn tgt uid : String) (team : TeamRow)
    (hteam : findActiveTeam s tn = some team)
    (hcr : team.creator_id = uid)
    (htgt : tgt = uid) :
    (∀ m, s.members.find?
        (fun m2 => m2.team_id == team.id && m2.user_id == tgt) = some m →
      removeMember s tn tgt uid false = (.cannotRemoveSelf, s)) ∧
    (s.members.find?
        (fun m2 => m2.team_id == team.id && m2.user_id == tgt) = none →
      removeMember s tn tgt uid false = (.notAMember, s)) := by
  constructor
  · intro m hm
    simp only [removeMember, hteam, hm]
    rw [if_neg (fun hc => hc.1 hcr)]
    rw [if_pos ⟨htgt, by trivial⟩]
  · intro hm
    simp only [removeMember, hteam, hm]
    rw [if_neg (fun hc => hc.1 hcr)]

/-- Concrete check of `claim_C4_amended`: once the creator of team `A`
has been admitted as an ordinary member, their self-removal fails with
`CannotRemoveSelf`. -/
theorem claim_C4_witness :
    removeMember sZcreator "A" "z" "z" false =
      (RemoveOutcome.cannotRemoveSelf, sZcreator) := by
  exact (claim_C4_amended sZcreator "A" "z" "z" ⟨1, "A", "z", "Z", true, 0⟩
    (by decide) (by decide) rfl).1 ⟨1, "z", "Z", "BE"⟩ (by decide)

/-- Claim C5: in every reachable store each active team holds at most 5
membership rows, and `add_member` into a team that already holds 5 rows
(with the earlier lookups succeeding) fails with `TeamFull` and inserts
nothing. -/
theorem claim_C5 (s : Store) (hs : Reachable s) :
    (∀ t ∈ s.teams, t.is_active = true → memberCount s t.id ≤ 5) ∧
    (∀ (tn uid uname : String) (team : TeamRow) (u : UserRow) (dp pos : String),
      findActiveTeam s tn = some team →
      findActiveUser s uid = some u →
      u.position = some dp → dp ≠ "" →
      position_mapping dp = some pos →
      s.members.find? (fun m => m.user_id == uid) = none →
      memberCount s team.id = 5 →
      addMember s tn uid uname = (.teamFull, s)) := by
  constructor
  · intro t ht _
    exact (inv_of_reachable hs).memberCap t ht
  · intro tn uid uname team u dp pos hteam huser hpos hdp hmap hfree h5
    rw [addMember_reduce s tn uid uname team u dp pos hteam huser hpos hdp hmap]
    simp only [hfree]
    rw [if_pos (by omega : 5 ≤ memberCount s team.id)]

/-- Concrete check of `claim_C5`: team `A` filled to 5 members rejects a
sixth admission with `TeamFull`. -/
theorem claim_C5_witness :
    memberCount sFull 1 ≤ 5 ∧
    addMember sFull "A" "f" "F" = (AddMemberOutcome.teamFull, sFull) := by
  constructor
  · exact (claim_C5 sFull reach_sFull).1 ⟨1, "A", "z", "Z", true, 0⟩
      (by decide) (by decide)
  · exact (claim_C5 sFull reach_sFull).2 "A" "f" "F" ⟨1, "A", "z", "Z", true, 0⟩
      ⟨"f", "F", some "백엔드", true⟩ "백엔드" "BE"
      (by decide) (by decide) (by decide) (by decide) (by decide) (by decide)
      (by decide)

/-- Claim C6: in every reachable store each participant id appears in at
most one membership row system-wide, and `add_member` for a target who
already holds a membership row in any team (with the earlier lookups
succeeding) fails with `AlreadyAssigned` and inserts nothing. -/
theorem claim_C6 (s : Store) (hs : Reachable s) :
    (∀ uid : String, s.members.countP (fun m => m.user_id == uid) ≤ 1) ∧
    (∀ (tn uid uname : String) (team : TeamRow) (u : UserRow)
        (dp pos : String) (m : MemberRow),
      findActiveTeam s tn = some team →
      findActiveUser s uid = some u →
      u.position = some dp → dp ≠ "" →
      position_mapping dp = some pos →
      s.members.find? (fun m2 => m2.user_id == uid) = some m →
      addMember s tn uid uname = (.alreadyAssigned, s)) := by
  constructor
  · exact (inv_of_reachable hs).userOnce
  · intro tn uid uname team u dp pos m hteam huser hpos hdp hmap hmem
    rw [addMember_reduce s tn uid uname team u dp pos hteam huser hpos hdp hmap]
    simp only [hmem]

/-- Concrete check of `claim_C6`: member `a` of team `A` cannot also be
admitted into team `B`. -/
theorem claim_C6_witness :
    sFull.members.countP (fun m => m.user_id == "a") ≤ 1 ∧
    addMember sFull "B" "a" "A" = (AddMemberOutcome.alreadyAssigned, sFull) := by
  constructor
  · exact (claim_C6 sFull reach_sFull).1 "a"
  · exact (claim_C6 sFull reach_sFull).2 "B" "a" "A" ⟨2, "B", "y", "Y", true, 0⟩
      ⟨"a", "A", some "백엔드", true⟩ "백엔드" "BE" ⟨1, "a", "A", "BE"⟩
      (by decide) (by decide) (by decide) (by decide) (by decide) (by decide)

/-- Claim C7: in every reachable store every topic value holds at most
`MAX_TEAMS_PER_TOPIC` active selections, and `select_topic` for a topic
at its quota (window open, valid topic, team found, creator call) fails
with `TopicQuotaExceeded` and performs no write — both when the team has
no selection yet and when it would change an existing one, since the
quota guard precedes the branch on the existing selection. -/
theorem claim_C7 (s : Store) (hs : Reachable s) :
    (∀ v : String, topicCount s v ≤ MAX_TEAMS_PER_TOPIC) ∧
    (∀ (tn topic cid cname : String) (km now : Nat) (team : TeamRow),
      is_selection_time km = true →
      pyUpper topic ∈ TOPICS →
      findActiveTeam s tn = some team →
      team.creator_id = cid →
      MAX_TEAMS_PER_TOPIC ≤ topicCount s (pyUpper topic) →
      selectTopic s tn topic cid cname km now = (.quotaExceeded, s)) := by
  constructor
  · exact (inv_of_reachable hs).quota
  · intro tn topic cid cname km now team htime htop hteam hcr hq
    exact selectTopic_quotaExceeded s tn topic cid cname km now team
      htime htop hteam hcr hq

/-- Concrete check of `claim_C7`: with all six `WORK` slots taken, a
seventh team-level `WORK` request is rejected and nothing is written. -/
theorem claim_C7_witness :
    topicCount w6 "WORK" ≤ MAX_TEAMS_PER_TOPIC ∧
    selectTopic w6 "T2" "WORK" "c2" "C2" 940 9 =
      (SelectOutcome.quotaExceeded, w6) := by
  constructor
  · exact (claim_C7 w6 reach_w6).1 "WORK"
  · exact (claim_C7 w6 reach_w6).2 "T2" "WORK" "c2" "C2" 940 9
      ⟨2, "T2", "c2", "C2", true, 0⟩
      (by decide) (by decide) (by decide) (by decide) (by decide)

/-- Claim C8: in every reachable store at most one active team carries a
given name; `create_team` under a name held by an active team fails with
the duplicate error and writes nothing, while under a name held only by
an inactive team it reactivates that row in place — success outcome, no
new row, unchanged id counter, and the existing row (same id) turned
active with the creator fields and timestamp overwritten. -/
theorem claim_C8 (s : Store) (hs : Reachable s) :
    (∀ n : String, s.teams.countP (fun t => t.name == n && t.is_active) ≤ 1) ∧
    (∀ (tn cid cname : String) (now : Nat) (t : TeamRow),
      s.teams.find? (fun t2 => t2.name == tn && t2.is_active) = some t →
      createTeam s tn cid cname now = (.duplicateActiveName, s)) ∧
    (∀ (tn cid cname : String) (now : Nat) (t : TeamRow),
      s.teams.find? (fun t2 => t2.name == tn && t2.is_active) = none →
      s.teams.find? (fun t2 => t2.name == tn && !t2.is_active) = some t →
      (createTeam s tn cid cname now).1 = .reactivated ∧
      (createTeam s tn cid cname now).2.teams.length = s.teams.length ∧
      (createTeam s tn cid cname now).2.nextTeamId = s.nextTeamId ∧
      ∃ t2 ∈ (createTeam s tn cid cname now).2.teams,
        t2.id = t.id ∧ t2.name = tn ∧ t2.is_active = true ∧
        t2.creator_id = cid ∧ t2.creator_name = cname ∧ t2.created_at = now) := by
  refine ⟨(inv_of_reachable hs).nameOnce, ?_, ?_⟩
  · intro tn cid cname now t hact
    simp only [createTeam, hact]
  · intro tn cid cname now t hact hina
    have hname : t.name = tn := by
      have h1 := List.find?_some hina
      simp only [Bool.and_eq_true, beq_iff_eq] at h1
      exact h1.1
    simp only [createTeam, hact, hina]
    refine ⟨by trivial, ?_, by trivial, ?_⟩
    · exact length_updateFirst _ _ _
    · exact ⟨_, updateFirst_mem_of_find? hina, rfl, hname, rfl, rfl, rfl, rfl⟩

/-- Concrete check of `claim_C8`: recreating active `A` fails; after the
core deletion, recreating `A` reactivates the old row under the new
creator. -/
theorem claim_C8_witness :
    createTeam sFull "A" "q" "Q" 7 = (CreateOutcome.duplicateActiveName, sFull) ∧
    ((createTeam sDel "A" "w" "W" 9).1 = CreateOutcome.reactivated ∧
      (createTeam sDel "A" "w" "W" 9).2.teams.length = sDel.teams.length ∧
      (createTeam sDel "A" "w" "W" 9).2.nextTeamId = sDel.nextTeamId ∧
      ∃ t2 ∈ (createTeam sDel "A" "w" "W" 9).2.teams,
        t2.id = 1 ∧ t2.name = "A" ∧ t2.is_active = true ∧
        t2.creator_id = "w" ∧ t2.creator_name = "W" ∧ t2.created_at = 9) := by
  constructor
  · exact (claim_C8 sFull reach_sFull).2.1 "A" "q" "Q" 7
      ⟨1, "A", "z", "Z", true, 0⟩ (by decide)
  · exact (claim_C8 sDel reach_sDel).2.2 "A" "w" "W" 9
      ⟨1, "A", "z", "Z", false, 0⟩ (by decide) (by decide)

/-- A membership list in which every participant id is counted at most
once maps to a duplicate-free id list. -/
theorem nodup_map_userid :
    ∀ l : List MemberRow,
      (∀ uid : String, l.countP (fun m => m.user_id == uid) ≤ 1) →
      (l.map (fun m => m.user_id)).Nodup := by
  intro l
  induction l with
  | nil => intro h; simp
  | cons a l ih =>
    intro h
    rw [List.map_cons, List.nodup_cons]
    constructor
    · intro hmem
      rcases List.mem_map.mp hmem with ⟨b, hb, hba⟩
      have h2 := h a.user_id
      rw [List.countP_cons] at h2
      have hpa : (a.user_id == a.user_id) = true := by simp
      rw [if_pos hpa] at h2
      have h3 : 0 < l.countP (fun m => m.user_id == a.user_id) :=
        List.countP_pos_iff.mpr ⟨b, hb, by simp [hba]⟩
      omega
    · refine ih ?_
      intro uid
      have h2 := h uid
      rw [List.countP_cons] at h2
      have h4 : (0:Nat) ≤ (if (a.user_id == uid) = true then 1 else 0) := by omega
      omega

/-- The participant ids of a team's membership rows. -/
def teamMemberIds (s : Store) (tid : Nat) : List String :=
  (s.members.filter (fun m => m.team_id == tid)).map (fun m => m.user_id)

/-- Claim C9: `add_member` never treats a team's creator as already
assigned, because the creator role is not stored as a membership row: a
creator who is a registered participant with a mapped position and no
membership row is admitted into their own team like anyone else; and a
reachable team at the 5-membership ceiling whose members exclude the
creator involves 6 pairwise-distinct people, creator included. -/
theorem claim_C9 (s : Store) (hs : Reachable s) :
    (∀ (tn uname : String) (team : TeamRow) (u : UserRow) (dp pos : String),
      findActiveTeam s tn = some team →
      findActiveUser s team.creator_id = some u →
      u.position = some dp → dp ≠ "" →
      position_mapping dp = some pos →
      s.members.find? (fun m => m.user_id == team.creator_id) = none →
      memberCount s team.id ≤ 3 →
      addMember s tn team.creator_id uname =
        (.added, { s with members :=
          (s.members ++ [⟨team.id, team.creator_id, uname, pos⟩]) })) ∧
    (∀ team ∈ s.teams, memberCount s team.id = 5 →
      (∀ m ∈ s.members, m.team_id = team.id → m.user_id ≠ team.creator_id) →
      (team.creator_id :: teamMemberIds s team.id).length = 6 ∧
      (team.creator_id :: teamMemberIds s team.id).Nodup) := by
  constructor
  · intro tn uname team u dp pos hteam huser hpos hdp hmap hfree hcnt
    rw [addMember_reduce s tn team.creator_id uname team u dp pos
      hteam huser hpos hdp hmap]
    simp only [hfree]
    rw [if_neg (by omega : ¬ 5 ≤ memberCount s team.id)]
    rw [if_neg (fun hc => absurd hc.1 (by omega : ¬ 4 ≤ memberCount s team.id))]
  · intro team hteam h5 hne
    have hlen : (teamMemberIds s team.id).length = 5 := by
      rw [teamMemberIds, List.length_map, ← List.countP_eq_length_filter]
      exact h5
    constructor
    · rw [List.length_cons, hlen]
    · rw [List.nodup_cons]
      constructor
      · intro hmem
        rcases List.mem_map.mp hmem with ⟨m, hmf, hmu⟩
        rcases List.mem_filter.mp hmf with ⟨hm, hmt⟩
        exact hne m hm (by simpa using hmt) hmu
      · have hall : (s.members.map (fun m => m.user_id)).Nodup :=
          nodup_map_userid s.members (inv_of_reachable hs).userOnce
        have hsub : List.Sublist (teamMemberIds s team.id)
            (s.members.map (fun m => m.user_id)) :=
          List.Sublist.map _ (List.filter_sublist _)
        exact hall.sublist hsub

/-- Concrete check of `claim_C9`: creator `z` is admitted into their own
team `A`, and the full team `A` with members `a`..`e` plus creator `z`
makes 6 distinct people. -/
theorem claim_C9_witness :
    addMember sB "A" "z" "Z" = (AddMemberOutcome.added, sZcreator) ∧
    ("z" :: teamMemberIds sFull 1).length = 6 ∧
    ("z" :: teamMemberIds sFull 1).Nodup := by
  refine ⟨?_, ?_, ?_⟩
  · exact (claim_C9 sB reach_sB).1 "A" "Z" ⟨1, "A", "z", "Z", true, 0⟩
      ⟨"z", "Z", some "백엔드", true⟩ "백엔드" "BE"
      (by decide) (by decide) (by decide) (by decide) (by decide) (by decide)
      (by decide)
  · exact ((claim_C9 sFull reach_sFull).2 ⟨1, "A", "z", "Z", true, 0⟩
      (by decide) (by decide) (by decide)).1
  · exact ((claim_C9 sFull reach_sFull).2 ⟨1, "A", "z", "Z", true, 0⟩
      (by decide) (by decide) (by decide)).2

/-- Claim C10: the admin surface's team delete clears only the active
flag and keeps every membership row, and the `AlreadyAssigned` check of
`add_member` counts membership rows regardless of the owning team's
active flag — so after an admin delete every former member of the team is
still rejected from every team with `AlreadyAssigned`. -/
theorem claim_C10 (s : Store) (tid : Nat) :
    ((admin_delete_team s tid).members = s.members) ∧
    (∀ t ∈ (admin_delete_team s tid).teams, t.id = tid → t.is_active = false) ∧
    (∀ (tn uid uname : String) (team : TeamRow) (u : UserRow) (dp pos : String),
      (∃ m ∈ s.members, m.user_id = uid) →
      findActiveTeam (admin_delete_team s tid) tn = some team →
      findActiveUser (admin_delete_team s tid) uid = some u →
      u.position = some dp → dp ≠ "" →
      position_mapping dp = some pos →
      addMember (admin_delete_team s tid) tn uid uname =
        (.alreadyAssigned, admin_delete_team s tid)) := by
  refine ⟨rfl, ?_, ?_⟩
  · intro t ht htid
    rcases List.mem_map.mp ht with ⟨a, ha, rfl⟩
    by_cases hid : (a.id == tid) = true
    · rw [if_pos hid]
    · exfalso
      rw [if_neg hid] at htid
      exact hid (by simp [htid])
  · intro tn uid uname team u dp pos hex hteam huser hpos hdp hmap
    rcases hex with ⟨m, hm, hmu⟩
    have hsome : ((admin_delete_team s tid).members.find?
        (fun m2 => m2.user_id == uid)).isSome := by
      rw [List.find?_isSome]
      exact ⟨m, hm, by simp [hmu]⟩
    rcases Option.isSome_iff_exists.mp hsome with ⟨m2, hm2⟩
    rw [addMember_reduce (admin_delete_team s tid) tn uid uname team u dp pos
      hteam huser hpos hdp hmap]
    simp only [hm2]

/-- Concrete check of `claim_C10`: after the admin delete of team `A`,
its membership rows persist and former member `a` is rejected from team
`B` with `AlreadyAssigned`. -/
theorem claim_C10_witness :
    sAdm.members = sFull.members ∧
    (∀ t ∈ sAdm.teams, t.id = 1 → t.is_active = false) ∧
    addMember sAdm "B" "a" "A" = (AddMemberOutcome.alreadyAssigned, sAdm) := by
  refine ⟨(claim_C10 sFull 1).1, (claim_C10 sFull 1).2.1, ?_⟩
  exact (claim_C10 sFull 1).2.2 "B" "a" "A" ⟨2, "B", "y", "Y", true, 0⟩
    ⟨"a", "A", some "백엔드", true⟩ "백엔드" "BE"
    ⟨⟨1, "a", "A", "BE"⟩, by decide, rfl⟩
    (by decide) (by decide) (by decide) (by decide) (by decide)

end Worunie
